import Mathlib

/-!
Verification of the Resistive_Touch_Screen Arduino library
(src/Resistive_Touch_Screen.cpp, src/Resistive_Touch_Screen.h).

The C++ code is shallowly embedded: machine integers are modelled as
`Int`/`Nat` with explicit two's-complement wrapping where the C code
performs narrowing conversions (`int16_t`, `int32_t` a.k.a. `long`,
`uint16_t`); analog pin reads and the `random()` call in the portrait
branch are modelled as explicit oracle inputs; the two function-local
`static bool` variables of `isTouching` and `newScreenTap` are threaded
through an explicit state record.
-/

namespace RTS

/-- Two's-complement narrowing of an integer to a signed 16-bit value,
as performed by a C assignment to an `int16_t` field. -/
def toInt16 (v : Int) : Int := (v + 32768) % 65536 - 32768

/-- Two's-complement wrap of an integer to a signed 32-bit value, the
behaviour of arithmetic on the 32-bit `long` type used by Arduino `map`. -/
def toInt32 (v : Int) : Int := (v + 2147483648) % 4294967296 - 2147483648

/-- `TSPoint` from Adafruit's TouchScreen.h: three `int16_t` fields.
`PressPoint` and `ScreenPoint` in the source both derive from it and add
no fields, so a single structure models all three. -/
structure TSPoint where
  x : Int
  y : Int
  z : Int
deriving DecidableEq, Repr

/-- The configuration fields of `class Resistive_Touch_Screen`
(all `uint16_t` members with in-class default initializers). -/
structure Config where
  x_min_ohms : Nat
  x_max_ohms : Nat
  y_min_ohms : Nat
  y_max_ohms : Nat
  width : Nat
  height : Nat
  start_touch_pressure : Nat
  stop_touch_pressure : Nat
deriving DecidableEq, Repr

/-- The default member values from Resistive_Touch_Screen.h:
ohm ranges 100..900 on both axes, 320x240 screen, thresholds 200/50. -/
def defaultConfig : Config := ⟨100, 900, 100, 900, 320, 240, 200, 50⟩

/-- Arduino's `long map(long x, long in_min, long in_max, long out_min,
long out_max)`: `(x - in_min) * (out_max - out_min) / (in_max - in_min)
+ out_min` computed on 32-bit `long` with C truncating division. -/
def amap (x in_min in_max out_min out_max : Int) : Int :=
  toInt32 (toInt32 (Int.tdiv (toInt32 (toInt32 (x - in_min) * toInt32 (out_max - out_min)))
    (toInt32 (in_max - in_min))) + out_min)

/-- Arduino's `constrain(amt, low, high)` macro:
`(amt < low) ? low : ((amt > high) ? high : amt)`. -/
def constrain (amt low high : Int) : Int :=
  if amt < low then low else if high < amt then high else amt

/-- `Resistive_Touch_Screen::mapTouchToScreen` (lines 126-181).
The switch on `orientation` assigns `screenCoord->x/y` from `map(...)`
(narrowed to `int16_t` on assignment); the portrait default branch uses
`random(0, _width)` and `random(0, _height)`, modelled here by the oracle
arguments `r1 r2`; finally both x and y are passed through `constrain`
and stored back into the `int16_t` fields. -/
def mapTouchToScreen (cfg : Config) (touchOhms : TSPoint) (orientation : Int)
    (r1 r2 : Int) : TSPoint :=
  let s : TSPoint :=
    if orientation = 1 then
      ⟨toInt16 (amap touchOhms.y (cfg.y_min_ohms : Int) (cfg.y_max_ohms : Int) 0 (cfg.width : Int)),
       toInt16 (amap touchOhms.x (cfg.x_max_ohms : Int) (cfg.x_min_ohms : Int) 0 (cfg.height : Int)),
       touchOhms.z⟩
    else if orientation = 3 then
      ⟨toInt16 (amap touchOhms.y (cfg.x_max_ohms : Int) (cfg.x_min_ohms : Int) 0 (cfg.width : Int)),
       toInt16 (amap touchOhms.x (cfg.y_min_ohms : Int) (cfg.y_max_ohms : Int) 0 (cfg.height : Int)),
       touchOhms.z⟩
    else
      ⟨toInt16 r1, toInt16 r2, touchOhms.z⟩
  ⟨toInt16 (constrain s.x 0 (cfg.width : Int)),
   toInt16 (constrain s.y 0 (cfg.height : Int)),
   s.z⟩

/-- `Resistive_Touch_Screen::isTouching` (lines 46-63) as a step of its
static `button_state`: the first `if` sets the flag when idle and
`pres_val > _start_touch_pressure`; the second clears it when set and
`pres_val < _stop_touch_pressure`; the function returns the updated flag. -/
def isTouching_step (cfg : Config) (button_state : Bool) (pres_val : Nat) : Bool :=
  let b1 := if button_state = false ∧ cfg.start_touch_pressure < pres_val then true else button_state
  let b2 := if b1 = true ∧ pres_val < cfg.stop_touch_pressure then false else b1
  b2

/-- The two function-local `static bool` flags: `button_state` inside
`isTouching` and `gTouching` inside `newScreenTap`, both initially false. -/
structure TapState where
  button_state : Bool
  gTouching : Bool
deriving DecidableEq, Repr

/-- Initial state: both statics are initialized to `false`. -/
def initTapState : TapState := ⟨false, false⟩

/-- The analog oracle values consumed by one `newScreenTap` call:
`p` is the `pressure()` sample read inside `isTouching`; `tx`, `ty`, `tz`
are the `readTouchX()`, `readTouchY()` and second `pressure()` results
used to build `touchOhms` on a new touch; `r1`, `r2` feed the `random()`
calls of the unimplemented portrait branch. -/
structure TapInput where
  p : Nat
  tx : Int
  ty : Int
  tz : Nat
  r1 : Int
  r2 : Int
deriving DecidableEq, Repr

/-- `Resistive_Touch_Screen::newScreenTap` (lines 70-118): returns the
updated static state, the (possibly updated) caller-supplied screen
point, and the `result` boolean. The `touchOhms` fields are `int16_t`,
so the `int`/`uint16_t` readings are narrowed on assignment. -/
def newScreenTap (cfg : Config) (orientation : Int) (st : TapState)
    (screen : TSPoint) (inp : TapInput) : TapState × TSPoint × Bool :=
  let b := isTouching_step cfg st.button_state inp.p
  if st.gTouching then
    if b then (⟨b, st.gTouching⟩, screen, false) else (⟨b, false⟩, screen, false)
  else
    if b then
      (⟨b, true⟩,
       mapTouchToScreen cfg ⟨toInt16 inp.tx, toInt16 inp.ty, toInt16 (inp.tz : Int)⟩
         orientation inp.r1 inp.r2,
       true)
    else (⟨b, st.gTouching⟩, screen, false)

/-- Iterate `newScreenTap` over a list of per-call analog inputs,
returning the final static state, the final screen point, and the list
of results in call order. -/
def runTaps (cfg : Config) (orientation : Int) :
    TapState → TSPoint → List TapInput → TapState × TSPoint × List Bool
  | st, scr, [] => (st, scr, [])
  | st, scr, inp :: rest =>
    let out := newScreenTap cfg orientation st scr inp
    let next := runTaps cfg orientation out.1 out.2.1 rest
    (next.1, next.2.1, out.2.2 :: next.2.2)

/-- `Resistive_Touch_Screen::pressure` (lines 278-297): with `z1` the
analog reading on the X- pin and `z2` the reading on the Y+ pin, the
function computes `(uint16_t)(1023 - (z2 - z1))` in `int` arithmetic and
narrows to `uint16_t` on return. -/
def pressure (z1 z2 : Nat) : Nat :=
  ((1023 - ((z2 : Int) - (z1 : Int))) % 65536).toNat

/-- One insertion step of `insert_sort`: place `x` into the already
sorted list, shifting larger elements right (the inner `for` loop shifts
while `save < array[j - 1]`). -/
def insertOrd (x : Nat) : List Nat → List Nat
  | [] => [x]
  | y :: ys => if x < y then x :: y :: ys else y :: insertOrd x ys

/-- `Resistive_Touch_Screen::insert_sort` (lines 189-199): in-place
insertion sort, inserting each element in turn into the sorted front of
the array. -/
def insert_sort (l : List Nat) : List Nat :=
  l.foldl (fun sorted x => insertOrd x sorted) []

/-- `Resistive_Touch_Screen::getPoint` (lines 206-228): reads X and Y,
samples `pressure()` three times into `p[3]`, sorts with `insert_sort`,
and returns `p[1]` (the middle element) as `z`. The analog readings are
the explicit arguments; the `int`/`uint16_t` values are narrowed to the
`int16_t` fields of the returned `TSPoint`. -/
def getPoint (tx ty : Int) (p0 p1 p2 : Nat) : TSPoint :=
  let p := insert_sort [p0, p1, p2]
  ⟨toInt16 tx, toInt16 ty, toInt16 ((p.getD 1 0 : Nat) : Int)⟩

/-- The median of three values: the middle element in sorted order. -/
def med3 (a b c : Nat) : Nat :=
  if a ≤ b then (if b ≤ c then b else (if a ≤ c then c else a))
  else (if a ≤ c then a else (if b ≤ c then c else b))

/-- Element access into a result list, `false` past the end. -/
def boolAt : List Bool → Nat → Bool
  | [], _ => false
  | b :: _, 0 => b
  | _ :: rest, n + 1 => boolAt rest n

/-- Element access into an input list. -/
def inputAt : List TapInput → Nat → Option TapInput
  | [], _ => none
  | q :: _, 0 => some q
  | _ :: rest, n + 1 => inputAt rest n

/-! ### Basic lemmas about the integer conversions and list access -/

theorem toInt16_lb (v : Int) : -32768 ≤ toInt16 v := by
  unfold toInt16; omega

theorem toInt16_ub (v : Int) : toInt16 v ≤ 32767 := by
  unfold toInt16; omega

theorem toInt16_eq_self (v : Int) (h1 : -32768 ≤ v) (h2 : v ≤ 32767) : toInt16 v = v := by
  unfold toInt16; omega

theorem boolAt_nil (n : Nat) : boolAt [] n = false := rfl

theorem boolAt_cons_zero (b : Bool) (rest : List Bool) : boolAt (b :: rest) 0 = b := rfl

theorem boolAt_cons_succ (b : Bool) (rest : List Bool) (n : Nat) :
    boolAt (b :: rest) (n + 1) = boolAt rest n := rfl

theorem inputAt_cons_zero (q : TapInput) (rest : List TapInput) :
    inputAt (q :: rest) 0 = some q := rfl

theorem inputAt_cons_succ (q : TapInput) (rest : List TapInput) (n : Nat) :
    inputAt (q :: rest) (n + 1) = inputAt rest n := rfl

theorem runTaps_nil (cfg : Config) (o : Int) (st : TapState) (scr : TSPoint) :
    runTaps cfg o st scr [] = (st, scr, []) := rfl

theorem runTaps_cons (cfg : Config) (o : Int) (st : TapState) (scr : TSPoint)
    (inp : TapInput) (rest : List TapInput) :
    runTaps cfg o st scr (inp :: rest) =
      ((runTaps cfg o (newScreenTap cfg o st scr inp).1 (newScreenTap cfg o st scr inp).2.1 rest).1,
       (runTaps cfg o (newScreenTap cfg o st scr inp).1 (newScreenTap cfg o st scr inp).2.1 rest).2.1,
       (newScreenTap cfg o st scr inp).2.2 ::
         (runTaps cfg o (newScreenTap cfg o st scr inp).1 (newScreenTap cfg o st scr inp).2.1 rest).2.2) :=
  rfl

/-- The orientation 1 and 3 branches of `mapTouchToScreen` never read the
`random()` oracle. -/
theorem mapTouchToScreen_oracle_free (cfg : Config) (pt : TSPoint) (r1 r2 s1 s2 : Int) :
    (mapTouchToScreen cfg pt 1 r1 r2 = mapTouchToScreen cfg pt 1 s1 s2) ∧
    (mapTouchToScreen cfg pt 3 r1 r2 = mapTouchToScreen cfg pt 3 s1 s2) := by
  constructor <;> simp [mapTouchToScreen]

/-! ### Claim theorems -/

/-- C2: with orientation 1, screen 320x240 and default calibration
(100..900 ohms on both axes), `mapTouchToScreen` sends resistance sample
(100,100) to screen (0,240), (100,900) to (320,240), (900,100) to (0,0),
(900,900) to (320,0), and (500,500) to (160,120); `r1 r2` are the unused
portrait-branch oracle values. -/
theorem mapTouchToScreen_landscape_fixed_points (r1 r2 : Int) :
    (mapTouchToScreen defaultConfig ⟨100, 100, 900⟩ 1 r1 r2).x = 0 ∧
    (mapTouchToScreen defaultConfig ⟨100, 100, 900⟩ 1 r1 r2).y = 240 ∧
    (mapTouchToScreen defaultConfig ⟨100, 900, 900⟩ 1 r1 r2).x = 320 ∧
    (mapTouchToScreen defaultConfig ⟨100, 900, 900⟩ 1 r1 r2).y = 240 ∧
    (mapTouchToScreen defaultConfig ⟨900, 100, 900⟩ 1 r1 r2).x = 0 ∧
    (mapTouchToScreen defaultConfig ⟨900, 100, 900⟩ 1 r1 r2).y = 0 ∧
    (mapTouchToScreen defaultConfig ⟨900, 900, 900⟩ 1 r1 r2).x = 320 ∧
    (mapTouchToScreen defaultConfig ⟨900, 900, 900⟩ 1 r1 r2).y = 0 ∧
    (mapTouchToScreen defaultConfig ⟨500, 500, 900⟩ 1 r1 r2).x = 160 ∧
    (mapTouchToScreen defaultConfig ⟨500, 500, 900⟩ 1 r1 r2).y = 120 := by
  have h : ∀ pt : TSPoint,
      mapTouchToScreen defaultConfig pt 1 r1 r2 = mapTouchToScreen defaultConfig pt 1 0 0 :=
    fun pt => (mapTouchToScreen_oracle_free defaultConfig pt r1 r2 0 0).1
  simp only [h]
  decide

/-- C3: with orientation 3 and the same default configuration, the four
corner resistance samples map to the point-reflection of their
orientation 1 images: (100,100) to (320,0), (100,900) to (0,0),
(900,100) to (320,240), and (900,900) to (0,240). -/
theorem mapTouchToScreen_flipped_fixed_points (r1 r2 : Int) :
    (mapTouchToScreen defaultConfig ⟨100, 100, 900⟩ 3 r1 r2).x = 320 ∧
    (mapTouchToScreen defaultConfig ⟨100, 100, 900⟩ 3 r1 r2).y = 0 ∧
    (mapTouchToScreen defaultConfig ⟨100, 900, 900⟩ 3 r1 r2).x = 0 ∧
    (mapTouchToScreen defaultConfig ⟨100, 900, 900⟩ 3 r1 r2).y = 0 ∧
    (mapTouchToScreen defaultConfig ⟨900, 100, 900⟩ 3 r1 r2).x = 320 ∧
    (mapTouchToScreen defaultConfig ⟨900, 100, 900⟩ 3 r1 r2).y = 240 ∧
    (mapTouchToScreen defaultConfig ⟨900, 900, 900⟩ 3 r1 r2).x = 0 ∧
    (mapTouchToScreen defaultConfig ⟨900, 900, 900⟩ 3 r1 r2).y = 240 := by
  have h : ∀ pt : TSPoint,
      mapTouchToScreen defaultConfig pt 3 r1 r2 = mapTouchToScreen defaultConfig pt 3 0 0 :=
    fun pt => (mapTouchToScreen_oracle_free defaultConfig pt r1 r2 0 0).2
  simp only [h]
  decide

/-- C7 counterexample: `pressure()` does not return the average
`(z1 + (1023 - z2)) / 2` of the two complementary readings; at
`z1 = z2 = 100` the code yields `1023 - (100 - 100) = 1023` while the
claimed average is `(100 + 923) / 2 = 511`. -/
theorem pressure_not_average : pressure 100 100 ≠ (100 + (1023 - 100)) / 2 := by decide

/-- C7 amended: for analog readings `z1` (X- pin) and `z2` (Y+ pin) in
the 10-bit ADC range, `pressure()` returns `1023 - (z2 - z1)`, the sum
`z1 + (1023 - z2)` of the two complementary readings (not their average). -/
theorem pressure_sum_of_complements (z1 z2 : Nat) (h1 : z1 ≤ 1023) (h2 : z2 ≤ 1023) :
    pressure z1 z2 = z1 + (1023 - z2) := by
  unfold pressure; omega

/-- C7 amended, witness at z1 = 200, z2 = 300. -/
theorem pressure_sum_of_complements_witness : pressure 200 300 = 200 + (1023 - 300) :=
  pressure_sum_of_complements 200 300 (by decide) (by decide)

/-- C9: for orientation 1 or 3, `mapTouchToScreen` is a pure function of
the resistance sample and the calibration configuration: its output does
not depend on the `random()` oracle, so two calls with identical sample,
configuration and orientation produce identical screen points. -/
theorem mapTouchToScreen_deterministic (cfg : Config) (pt : TSPoint) (o : Int)
    (r1 r2 s1 s2 : Int) (h : o = 1 ∨ o = 3) :
    mapTouchToScreen cfg pt o r1 r2 = mapTouchToScreen cfg pt o s1 s2 := by
  rcases h with h | h <;> subst h
  · exact (mapTouchToScreen_oracle_free cfg pt r1 r2 s1 s2).1
  · exact (mapTouchToScreen_oracle_free cfg pt r1 r2 s1 s2).2

/-- C9 witness: identical inputs with different oracle values, orientation 1. -/
theorem mapTouchToScreen_deterministic_witness :
    mapTouchToScreen defaultConfig ⟨500, 500, 900⟩ 1 7 8 =
      mapTouchToScreen defaultConfig ⟨500, 500, 900⟩ 1 (-9) 10 :=
  mapTouchToScreen_deterministic defaultConfig ⟨500, 500, 900⟩ 1 7 8 (-9) 10 (Or.inl rfl)

/-- The final `constrain` line of `mapTouchToScreen` clamps any
`int16_t` value into `[0, bound]`. -/
theorem constrain16_bounds (v : Int) (w : Nat) :
    0 ≤ toInt16 (constrain (toInt16 v) 0 (w : Int)) ∧
      toInt16 (constrain (toInt16 v) 0 (w : Int)) ≤ (w : Int) := by
  unfold toInt16 constrain
  split_ifs <;> omega

/-- C4: for every resistance sample, every calibration whose per-axis ohm
bounds are distinct (so the `map` divisor is nonzero), and every
orientation value (including the portrait default branch with its random
oracle), the point produced by `mapTouchToScreen` satisfies
`0 ≤ x ≤ width` and `0 ≤ y ≤ height`. -/
theorem mapTouchToScreen_in_bounds (cfg : Config) (pt : TSPoint) (o : Int) (r1 r2 : Int)
    (hx : cfg.x_min_ohms ≠ cfg.x_max_ohms) (hy : cfg.y_min_ohms ≠ cfg.y_max_ohms) :
    0 ≤ (mapTouchToScreen cfg pt o r1 r2).x ∧
      (mapTouchToScreen cfg pt o r1 r2).x ≤ (cfg.width : Int) ∧
      0 ≤ (mapTouchToScreen cfg pt o r1 r2).y ∧
      (mapTouchToScreen cfg pt o r1 r2).y ≤ (cfg.height : Int) := by
  unfold mapTouchToScreen
  split_ifs <;>
    exact ⟨(constrain16_bounds _ _).1, (constrain16_bounds _ _).2,
      (constrain16_bounds _ _).1, (constrain16_bounds _ _).2⟩

/-- C4 witness: an out-of-range sample, an unsupported orientation 2 and
arbitrary oracle values stay inside the default 320x240 bounds. -/
theorem mapTouchToScreen_in_bounds_witness :
    0 ≤ (mapTouchToScreen defaultConfig ⟨40000, -5, 7⟩ 2 99999 (-7)).x ∧
      (mapTouchToScreen defaultConfig ⟨40000, -5, 7⟩ 2 99999 (-7)).x ≤ (defaultConfig.width : Int) ∧
      0 ≤ (mapTouchToScreen defaultConfig ⟨40000, -5, 7⟩ 2 99999 (-7)).y ∧
      (mapTouchToScreen defaultConfig ⟨40000, -5, 7⟩ 2 99999 (-7)).y ≤ (defaultConfig.height : Int) :=
  mapTouchToScreen_in_bounds defaultConfig ⟨40000, -5, 7⟩ 2 99999 (-7) (by decide) (by decide)

/-- C5: under `startPressure ≥ stopPressure`, one call to `isTouching`
is one step of the two-state hysteresis machine: from the not-touching
state it moves to touching exactly when the sampled pressure is strictly
above `_start_touch_pressure`; from the touching state it moves to
not-touching exactly when the sample is strictly below
`_stop_touch_pressure`; any other sample leaves the state unchanged, and
the value returned (`return button_state`) is the resulting state. -/
theorem isTouching_two_state (cfg : Config)
    (hss : cfg.stop_touch_pressure ≤ cfg.start_touch_pressure) (b : Bool) (p : Nat) :
    isTouching_step cfg b p =
      (if b then (if p < cfg.stop_touch_pressure then false else true)
       else (if cfg.start_touch_pressure < p then true else false)) := by
  unfold isTouching_step
  cases b <;> split_ifs <;> simp_all <;> omega

/-- C5 witness: from the idle state with default thresholds, pressure 300
starts a touch. -/
theorem isTouching_two_state_witness :
    isTouching_step defaultConfig false 300 =
      (if (false : Bool) then (if (300 : Nat) < defaultConfig.stop_touch_pressure then false else true)
       else (if defaultConfig.start_touch_pressure < (300 : Nat) then true else false)) :=
  isTouching_two_state defaultConfig (by decide) false 300

/-- C6: a `newScreenTap` call that reports no new touch leaves the
caller-supplied screen point exactly as it was (all of x, y, z); the
point is written only on the call that returns true. -/
theorem newScreenTap_frame (cfg : Config) (o : Int) (st : TapState) (scr : TSPoint)
    (inp : TapInput) (h : (newScreenTap cfg o st scr inp).2.2 = false) :
    (newScreenTap cfg o st scr inp).2.1 = scr := by
  unfold newScreenTap at *
  by_cases hg : st.gTouching <;>
    by_cases hb : isTouching_step cfg st.button_state inp.p <;>
      simp [hg, hb] at h ⊢

/-- C6 witness: a zero-pressure call from the initial state reports no
touch and returns the screen point (1,2,3) unchanged. -/
theorem newScreenTap_frame_witness :
    (newScreenTap defaultConfig 1 initTapState ⟨1, 2, 3⟩ ⟨0, 500, 500, 0, 0, 0⟩).2.1 = ⟨1, 2, 3⟩ :=
  newScreenTap_frame defaultConfig 1 initTapState ⟨1, 2, 3⟩ ⟨0, 500, 500, 0, 0, 0⟩ (by decide)

/-- C8: the `z` field of the point returned by `getPoint` is the median
of its three successive `pressure()` samples; the samples lie in
`[0, 2046]`, the range of `pressure()` for 10-bit analog readings. -/
theorem getPoint_z_median (tx ty : Int) (a b c : Nat)
    (ha : a ≤ 2046) (hb : b ≤ 2046) (hc : c ≤ 2046) :
    (getPoint tx ty a b c).z = ((med3 a b c : Nat) : Int) := by
  unfold getPoint insert_sort med3
  simp only [List.foldl]
  by_cases h1 : b < a <;> by_cases h2 : c < b <;> by_cases h3 : c < a <;>
    simp only [insertOrd, h1, h2, h3, if_true, if_false, ite_true, ite_false,
      List.getD, List.get?, Option.getD_some] <;>
    rw [toInt16_eq_self _ (by omega) (by omega)] <;>
    split_ifs <;> omega

/-- C8 witness: samples 5, 1, 3 give median 3. -/
theorem getPoint_z_median_witness : (getPoint 0 0 5 1 3).z = ((med3 5 1 3 : Nat) : Int) :=
  getPoint_z_median 0 0 5 1 3 (by decide) (by decide) (by decide)

/-! ### Step lemmas for the tap state machine -/

/-- With the flag already set, `isTouching` keeps it unless the sample
drops below `_stop_touch_pressure`. -/
theorem isTouching_step_on (cfg : Config) (p : Nat) :
    isTouching_step cfg true p = (if p < cfg.stop_touch_pressure then false else true) := by
  unfold isTouching_step
  split_ifs <;> simp_all

/-- With the flag clear, `isTouching` ends up set exactly when the sample
is above `_start_touch_pressure` and not below `_stop_touch_pressure`
(both `if`s run in sequence within the one call). -/
theorem isTouching_step_off (cfg : Config) (p : Nat) :
    isTouching_step cfg false p =
      (if cfg.start_touch_pressure < p ∧ ¬ p < cfg.stop_touch_pressure then true else false) := by
  unfold isTouching_step
  split_ifs <;> simp_all

/-- A `newScreenTap` call in the touching state reports no touch, leaves
the screen point alone, and moves both flags to the `isTouching` result. -/
theorem tap_step_touching (cfg : Config) (o : Int) (scr : TSPoint) (inp : TapInput) :
    newScreenTap cfg o ⟨true, true⟩ scr inp =
      (⟨isTouching_step cfg true inp.p, isTouching_step cfg true inp.p⟩, scr, false) := by
  unfold newScreenTap
  by_cases hb : isTouching_step cfg true inp.p <;> simp [hb]

/-- A `newScreenTap` call in the idle state reports a touch exactly when
`isTouching` fires, in which case it maps the freshly sampled ohms into
the screen point and sets both flags. -/
theorem tap_step_idle (cfg : Config) (o : Int) (scr : TSPoint) (inp : TapInput) :
    newScreenTap cfg o ⟨false, false⟩ scr inp =
      (if isTouching_step cfg false inp.p then
        (⟨true, true⟩,
         mapTouchToScreen cfg ⟨toInt16 inp.tx, toInt16 inp.ty, toInt16 (inp.tz : Int)⟩
           o inp.r1 inp.r2,
         true)
       else (⟨false, false⟩, scr, false)) := by
  unfold newScreenTap
  by_cases hb : isTouching_step cfg false inp.p <;> simp [hb]

/-- One `newScreenTap` call keeps `button_state` and `gTouching` equal. -/
theorem tap_step_sync (cfg : Config) (o : Int) (st : TapState) (scr : TSPoint)
    (inp : TapInput) (h : st.button_state = st.gTouching) :
    (newScreenTap cfg o st scr inp).1.button_state =
      (newScreenTap cfg o st scr inp).1.gTouching := by
  obtain ⟨b, g⟩ := st
  simp only at h
  subst h
  cases b with
  | false =>
      rw [tap_step_idle]
      by_cases hb : isTouching_step cfg false inp.p <;> simp [hb]
  | true =>
      rw [tap_step_touching]

/-- Every run of `newScreenTap` calls from a synchronized state ends in
a synchronized state. -/
theorem runTaps_sync (cfg : Config) (o : Int) (inputs : List TapInput) :
    ∀ (st : TapState) (scr : TSPoint), st.button_state = st.gTouching →
      (runTaps cfg o st scr inputs).1.button_state =
        (runTaps cfg o st scr inputs).1.gTouching := by
  induction inputs with
  | nil => intro st scr h; exact h
  | cons inp rest ih =>
      intro st scr h
      rw [runTaps_cons]
      exact ih _ _ (tap_step_sync cfg o st scr inp h)

/-- C10: the driver keeps two persistent booleans, `button_state` in
`isTouching` and `gTouching` in `newScreenTap`, both initially false;
after any sequence of completed `newScreenTap` calls (hence after every
prefix of calls) the two flags are equal: the redundant session state
never desynchronizes. -/
theorem newScreenTap_flags_never_desync (cfg : Config) (o : Int) (scr : TSPoint)
    (inputs : List TapInput) :
    (runTaps cfg o initTapState scr inputs).1.button_state =
      (runTaps cfg o initTapState scr inputs).1.gTouching :=
  runTaps_sync cfg o inputs initTapState scr rfl

/-- Starting a run in the touching state, every later reported touch is
preceded by a sample strictly below `_stop_touch_pressure`. -/
theorem touching_run_release (cfg : Config) (o : Int) (inputs : List TapInput) :
    ∀ (scr : TSPoint) (j : Nat),
      boolAt (runTaps cfg o ⟨true, true⟩ scr inputs).2.2 j = true →
      ∃ k q, k < j ∧ inputAt inputs k = some q ∧ q.p < cfg.stop_touch_pressure := by
  induction inputs with
  | nil =>
      intro scr j h
      rw [runTaps_nil] at h
      simp [boolAt] at h
  | cons inp rest ih =>
      intro scr j h
      rw [runTaps_cons, tap_step_touching] at h
      cases j with
      | zero => simp [boolAt] at h
      | succ j2 =>
          rw [boolAt_cons_succ] at h
          by_cases hp : inp.p < cfg.stop_touch_pressure
          · exact ⟨0, inp, Nat.succ_pos j2, rfl, hp⟩
          · have hb : isTouching_step cfg true inp.p = true := by
              rw [isTouching_step_on, if_neg hp]
            rw [hb] at h
            obtain ⟨k2, q, hk, hq, hps⟩ := ih scr j2 h
            exact ⟨k2 + 1, q, Nat.succ_lt_succ hk, hq, hps⟩

/-- Between any two reported touches of a run started in a synchronized
state lies a sample strictly below `_stop_touch_pressure`. -/
theorem run_two_taps_release (cfg : Config) (o : Int) (inputs : List TapInput) :
    ∀ (g : Bool) (scr : TSPoint) (i j : Nat), i < j →
      boolAt (runTaps cfg o ⟨g, g⟩ scr inputs).2.2 i = true →
      boolAt (runTaps cfg o ⟨g, g⟩ scr inputs).2.2 j = true →
      ∃ k q, i < k ∧ k < j ∧ inputAt inputs k = some q ∧
        q.p < cfg.stop_touch_pressure := by
  induction inputs with
  | nil =>
      intro g scr i j hij hi hj
      rw [runTaps_nil] at hi
      simp [boolAt] at hi
  | cons inp rest ih =>
      intro g scr i j hij hi hj
      cases g with
      | true =>
          rw [runTaps_cons, tap_step_touching] at hi hj
          cases i with
          | zero => simp [boolAt] at hi
          | succ i2 =>
              cases j with
              | zero => exact absurd hij (by omega)
              | succ j2 =>
                  rw [boolAt_cons_succ] at hi hj
                  obtain ⟨k2, q, hik, hkj, hq, hps⟩ :=
                    ih (isTouching_step cfg true inp.p) scr i2 j2 (by omega) hi hj
                  exact ⟨k2 + 1, q, by omega, by omega, hq, hps⟩
      | false =>
          rw [runTaps_cons, tap_step_idle] at hi hj
          by_cases hb : isTouching_step cfg false inp.p
          · rw [if_pos hb] at hi hj
            cases j with
            | zero => exact absurd hij (by omega)
            | succ j2 =>
                rw [boolAt_cons_succ] at hj
                cases i with
                | zero =>
                    obtain ⟨k2, q, hk, hq, hps⟩ := touching_run_release cfg o rest _ j2 hj
                    exact ⟨k2 + 1, q, Nat.succ_pos k2, Nat.succ_lt_succ hk, hq, hps⟩
                | succ i2 =>
                    rw [boolAt_cons_succ] at hi
                    obtain ⟨k2, q, hik, hkj, hq, hps⟩ := ih true _ i2 j2 (by omega) hi hj
                    exact ⟨k2 + 1, q, by omega, by omega, hq, hps⟩
          · rw [if_neg hb] at hi hj
            cases i with
            | zero => simp [boolAt] at hi
            | succ i2 =>
                cases j with
                | zero => exact absurd hij (by omega)
                | succ j2 =>
                    rw [boolAt_cons_succ] at hi hj
                    obtain ⟨k2, q, hik, hkj, hq, hps⟩ := ih false scr i2 j2 (by omega) hi hj
                    exact ⟨k2 + 1, q, by omega, by omega, hq, hps⟩

/-- C1 counterexample: the thresholds are configurable (`setThreshhold`
performs no validation), and with `_start_touch_pressure = 100`,
`_stop_touch_pressure = 300` the pressure sequence 400, 200, 400 — a
single contiguous run of samples above `startPressure` — makes
`newScreenTap` return true twice (releasing at the 200 sample, which is
above `startPressure` yet below `stopPressure`). -/
theorem newScreenTap_twice_in_one_run :
    (runTaps ⟨100, 900, 100, 900, 320, 240, 100, 300⟩ 1 initTapState ⟨0, 0, 0⟩
      [⟨400, 500, 500, 400, 0, 0⟩, ⟨200, 500, 500, 200, 0, 0⟩, ⟨400, 500, 500, 400, 0, 0⟩]).2.2 =
      [true, false, true] ∧
    (Config.start_touch_pressure ⟨100, 900, 100, 900, 320, 240, 100, 300⟩ = 100) ∧
    ((100 : Nat) < 400 ∧ (100 : Nat) < 200) := by decide

/-- C1 amended: provided `startPressure ≥ stopPressure` (the hysteresis
ordering the thresholds are designed for), over any sequence of
`newScreenTap` calls from the initial not-touching state, two reported
touches are always separated by a sample strictly below `stopPressure`,
and hence the call returns true at most once per contiguous run of
samples above `startPressure`: two distinct true results can never lie
in one such run. -/
theorem newScreenTap_once_per_press (cfg : Config) (o : Int) (scr : TSPoint)
    (inputs : List TapInput)
    (hss : cfg.stop_touch_pressure ≤ cfg.start_touch_pressure)
    (i j : Nat) (hij : i < j)
    (hi : boolAt (runTaps cfg o initTapState scr inputs).2.2 i = true)
    (hj : boolAt (runTaps cfg o initTapState scr inputs).2.2 j = true) :
    (∃ k q, i < k ∧ k < j ∧ inputAt inputs k = some q ∧
      q.p < cfg.stop_touch_pressure) ∧
    ¬ (∀ k q, i ≤ k → k ≤ j → inputAt inputs k = some q →
        cfg.start_touch_pressure < q.p) := by
  have hinit : initTapState = (⟨false, false⟩ : TapState) := rfl
  rw [hinit] at hi hj
  have h := run_two_taps_release cfg o inputs false scr i j hij hi hj
  refine ⟨h, ?_⟩
  obtain ⟨k, q, h1, h2, h3, h4⟩ := h
  intro hall
  have := hall k q (by omega) (by omega) h3
  omega

/-- C1 amended, witness: default thresholds (200/50), pressures
300, 10, 300 give taps at calls 0 and 2; the conclusion exhibits the
release sample and refutes that all samples of the span exceed 200. -/
theorem newScreenTap_once_per_press_witness :
    (∃ k q, 0 < k ∧ k < 2 ∧
      inputAt [⟨300, 500, 500, 300, 0, 0⟩, ⟨10, 500, 500, 10, 0, 0⟩,
        ⟨300, 500, 500, 300, 0, 0⟩] k = some q ∧
      q.p < defaultConfig.stop_touch_pressure) ∧
    ¬ (∀ k q, 0 ≤ k → k ≤ 2 →
        inputAt [⟨300, 500, 500, 300, 0, 0⟩, ⟨10, 500, 500, 10, 0, 0⟩,
          ⟨300, 500, 500, 300, 0, 0⟩] k = some q →
        defaultConfig.start_touch_pressure < q.p) :=
  newScreenTap_once_per_press defaultConfig 1 ⟨0, 0, 0⟩
    [⟨300, 500, 500, 300, 0, 0⟩, ⟨10, 500, 500, 10, 0, 0⟩, ⟨300, 500, 500, 300, 0, 0⟩]
    (by decide) 0 2 (by decide) (by decide) (by decide)

end RTS
